import Mathlib

/-!
Verification development for the package-manager MCP server
(`src/mcp_server.py`), a FastAPI service with three POST operations
(`/package_info`, `/dependencies`, `/compatible_versions`) backed by two
registries (pip, npm).

The Python code is shallowly embedded:
* Python `str` operations used by the code (`startswith`, slicing,
  `strip`, `lower`, `split(".")`, `join`) are modelled on the character
  list of the string, so that everything reduces by evaluation.
* `packaging.version.parse` is modelled by `parseVersion`, restricted to
  release-only versions (dot-separated numeric components); any other
  string is unparsable and parsing it raises (`Except.error`), as the
  installed `packaging` library raises `InvalidVersion`.  Comparison of
  parsed versions is `cmpVersion`, the standard release comparison
  (strip trailing zeros, then lexicographic), so that e.g. `1.2` and
  `1.2.0` compare equal.
* exceptions are modelled with `Except String`; each endpoint is a total
  function that wraps its fallible body exactly as the `try/except`
  blocks in the source do.
* CPython's stable `list.sort(key=..., reverse=True)` is modelled by
  `List.insertionSort` with the "greater or equal" relation on parsed
  keys, which is the same stable descending order.  The sort is
  performed *in place* on the `compatible_versions` list object; since
  in the unrecognized-operator branch that object is the very
  `all_versions` list (`compatible_versions = all_versions` aliases),
  `resolveCore` returns, besides the result fields, the final contents
  of the `all_versions` list so that aliasing-induced mutation is
  observable in the model.
-/

namespace PkgMCP

/-- Python `s.startswith(pre)`, modelled on the character list. -/
def pyStartsWith (s pre : String) : Bool :=
  List.isPrefixOf pre.data s.data

/-- Python slicing `s[n:]`, modelled on the character list. -/
def pySlice (s : String) (n : Nat) : String :=
  String.mk (s.data.drop n)

/-- Whitespace characters stripped by Python `str.strip()` (ASCII range;
the code never feeds exotic Unicode whitespace to `strip`). -/
def isPySpace (c : Char) : Bool :=
  c = ' ' || c = '\t' || c = '\n' || c = '\r' || c = '\x0b' || c = '\x0c'

/-- Python `s.strip()`, modelled on the character list. -/
def pyTrim (s : String) : String :=
  String.mk (((s.data.dropWhile isPySpace).reverse.dropWhile isPySpace).reverse)

/-- Python `s.lower()`, modelled on the character list. -/
def pyLower (s : String) : String :=
  String.mk (s.data.map Char.toLower)

/-- Python `s.split(".")` on the character list: splits at every dot,
keeping empty chunks, so that `"".split(".") == [""]`. -/
def splitDot : List Char → List (List Char)
  | [] => [[]]
  | c :: rest =>
    match splitDot rest with
    | [] => [[]]
    | g :: gs => if c = '.' then [] :: g :: gs else (c :: g) :: gs

/-- Python `s.split(".")` as a list of strings. -/
def pySplitDot (s : String) : List String :=
  (splitDot s.data).map String.mk

/-- Python `".".join(parts)`. -/
def joinDot : List String → String
  | [] => ""
  | [x] => x
  | x :: xs => x ++ "." ++ joinDot xs

/-- Parses one dot-separated component of a version: it must be a
non-empty string of decimal digits. -/
def parseNumComponent (cs : List Char) : Option Nat :=
  if cs.isEmpty then none
  else if cs.all Char.isDigit then
    some (cs.foldl (fun acc c => acc * 10 + (c.toNat - 48)) 0)
  else none

/-- Models `packaging.version.parse`, restricted to release-only
versions: a dot-separated list of numeric components.  Any other string
(pre-releases, local versions, garbage) is treated as unparsable and
raises, as `packaging` raises `InvalidVersion`. -/
def parseVersion (s : String) : Except String (List Nat) :=
  match (splitDot s.data).mapM parseNumComponent with
  | some ns => Except.ok ns
  | none => Except.error ("Invalid version: " ++ s)

/-- Parsed key of a version string, with a junk default for unparsable
strings (only ever used under a parsability hypothesis). -/
def parseKey (s : String) : List Nat :=
  match parseVersion s with
  | Except.ok ns => ns
  | Except.error _ => []

/-- Plain lexicographic comparison of component lists, with the Python
tuple rule that a strict prefix is smaller. -/
def lexCmp : List Nat → List Nat → Ordering
  | [], [] => Ordering.eq
  | [], _ :: _ => Ordering.lt
  | _ :: _, [] => Ordering.gt
  | a :: as, b :: bs =>
    if a < b then Ordering.lt
    else if b < a then Ordering.gt
    else lexCmp as bs

/-- Canonical release key: trailing zero components are dropped, which
is how `packaging` compares releases of different lengths (so `1.2` and
`1.2.0` are equal). -/
def verKey (a : List Nat) : List Nat :=
  (a.reverse.dropWhile (· = 0)).reverse

/-- Comparison of parsed versions, as performed by
`packaging.version.Version`'s total order on releases. -/
def cmpVersion (a b : List Nat) : Ordering :=
  lexCmp (verKey a) (verKey b)

/-- Boolean `a >= b` on parsed versions. -/
def vgeB (a b : List Nat) : Bool := cmpVersion a b != Ordering.lt

/-- Boolean `a > b` on parsed versions. -/
def vgtB (a b : List Nat) : Bool := cmpVersion a b == Ordering.gt

/-- Boolean `a <= b` on parsed versions. -/
def vleB (a b : List Nat) : Bool := cmpVersion a b != Ordering.gt

/-- Boolean `a < b` on parsed versions. -/
def vltB (a b : List Nat) : Bool := cmpVersion a b == Ordering.lt

instance {e a : Type} [DecidableEq e] [DecidableEq a] : DecidableEq (Except e a) := fun x y =>
  match x, y with
  | Except.ok u, Except.ok v =>
    if h : u = v then isTrue (by rw [h]) else isFalse (fun hh => h (Except.ok.inj hh))
  | Except.error u, Except.error v =>
    if h : u = v then isTrue (by rw [h]) else isFalse (fun hh => h (Except.error.inj hh))
  | Except.ok _, Except.error _ => isFalse (fun hh => Except.noConfusion hh)
  | Except.error _, Except.ok _ => isFalse (fun hh => Except.noConfusion hh)

/-- One filtering list comprehension
`[v for v in all_versions if version.parse(v) KEEP version.parse(operand)]`
from the source.  Per iteration the candidate is parsed first, then the
operand, exactly as Python evaluates the comparison; the first parse
failure raises and aborts the whole comprehension. -/
def filterCmp (vs : List String) (operand : String)
    (keep : List Nat → List Nat → Bool) : Except String (List String) :=
  match vs with
  | [] => Except.ok []
  | v :: rest => do
    let pv ← parseVersion v
    let pm ← parseVersion operand
    let tail ← filterCmp rest operand keep
    Except.ok (if keep pv pm then v :: tail else tail)

/-- Constraint dispatch of `get_compatible_versions` (source lines
221-241): the chain of `constraint.startswith(...)` tests, in source
order.  Returns `(aliased, compatible_versions)` where `aliased` records
whether `compatible_versions` is still the same list *object* as
`all_versions` (true exactly in the unrecognized-operator fallthrough,
where no branch rebinds it). -/
def applyConstraint (all_versions : List String) (constraint : String) :
    Except String (Bool × List String) :=
  if pyStartsWith constraint ">=" then
    (filterCmp all_versions (pyTrim (pySlice constraint 2)) vgeB).map
      (fun l => (false, l))
  else if pyStartsWith constraint ">" then
    (filterCmp all_versions (pyTrim (pySlice constraint 1)) vgtB).map
      (fun l => (false, l))
  else if pyStartsWith constraint "<=" then
    (filterCmp all_versions (pyTrim (pySlice constraint 2)) vleB).map
      (fun l => (false, l))
  else if pyStartsWith constraint "<" then
    (filterCmp all_versions (pyTrim (pySlice constraint 1)) vltB).map
      (fun l => (false, l))
  else if pyStartsWith constraint "==" then
    let exact_version := pyTrim (pySlice constraint 2)
    Except.ok (false, all_versions.filter (fun v => v == exact_version))
  else if pyStartsWith constraint "~=" then
    let compatible_version := pyTrim (pySlice constraint 2)
    let parts := pySplitDot compatible_version
    let pref := joinDot parts.dropLast ++ "."
    Except.ok (false, all_versions.filter (fun v => pyStartsWith v pref))
  else
    Except.ok (true, all_versions)

/-- Computes `version.parse(v)` for every element, pairing each string
with its key; raises at the first unparsable element, as CPython's
`list.sort(key=...)` does while building the key array. -/
def parseAll : List String → Except String (List (String × List Nat))
  | [] => Except.ok []
  | v :: rest => do
    let k ← parseVersion v
    let tail ← parseAll rest
    Except.ok ((v, k) :: tail)

/-- Descending order on keyed candidates: `a` may precede `b` when
`a`'s parsed version is greater than or equal to `b`'s.  Sorting a list
stably with this relation is exactly CPython's stable
`sort(key=version.parse, reverse=True)`. -/
def keyGE (a b : String × List Nat) : Prop :=
  cmpVersion a.2 b.2 ≠ Ordering.lt

instance : DecidableRel keyGE := fun a b =>
  inferInstanceAs (Decidable (cmpVersion a.2 b.2 ≠ Ordering.lt))

/-- Models `compatible_versions.sort(key=lambda v: version.parse(v),
reverse=True)`: parse every element (raising on the first unparsable
one, in which case CPython leaves the list unchanged), then sort stably
in descending key order. -/
def sortVersionsDesc (vs : List String) : Except String (List String) :=
  (parseAll vs).map (fun ps => (List.insertionSort keyGE ps).map Prod.fst)

/-- Outcome of the resolution step of `get_compatible_versions` (source
lines 213-248).  `all_versions_after` is the final contents of the
`all_versions` list object, recording in-place mutation through the
`compatible_versions = all_versions` alias. -/
structure ResolveOutcome where
  all_versions_after : List String
  compatible_versions : List String
  recommended_version : Option String
deriving DecidableEq, Repr

/-- Resolution step of `get_compatible_versions` (source lines
213-248): starts from `compatible_versions = all_versions` and
`recommended_version = latest_version`; when the constraint is truthy
(present and non-empty) it dispatches on the operator, then sorts any
non-empty match list in place (descending) and recommends its head,
or sets the recommendation to `None` when nothing matched. -/
def resolveCore (all_versions : List String)
    (version_constraint : Option String) (latest_version : String) :
    Except String ResolveOutcome :=
  match version_constraint with
  | none =>
    Except.ok ⟨all_versions, all_versions, some latest_version⟩
  | some c =>
    if c = "" then
      Except.ok ⟨all_versions, all_versions, some latest_version⟩
    else do
      let (aliased, compatible) ← applyConstraint all_versions c
      match compatible with
      | [] => Except.ok ⟨all_versions, [], none⟩
      | v :: rest => do
        let sorted ← sortVersionsDesc (v :: rest)
        Except.ok ⟨if aliased then sorted else all_versions, sorted,
          sorted.head?⟩

/-- JSON values, as decoded by `response.json()`. -/
inductive Json where
  | null
  | bool (b : Bool)
  | str (s : String)
  | num (n : Int)
  | arr (xs : List Json)
  | obj (fields : List (String × Json))

/-- Python `data[k]` on a decoded JSON value: `KeyError` when the key is
missing, `TypeError` when the value is not a dict. -/
def Json.get (j : Json) (k : String) : Except String Json :=
  match j with
  | Json.obj fields =>
    match fields.lookup k with
    | some v => Except.ok v
    | none => Except.error ("KeyError: " ++ k)
  | _ => Except.error ("TypeError: value is not subscriptable: " ++ k)

/-- Python `data.get(k, d)` on a decoded JSON value. -/
def Json.getD (j : Json) (k : String) (d : Json) : Except String Json :=
  match j with
  | Json.obj fields => Except.ok ((fields.lookup k).getD d)
  | _ => Except.error ("AttributeError: no attribute get: " ++ k)

/-- Keys of a JSON object, in insertion order, as Python
`list(data.keys())`; raises when the value is not a dict. -/
def Json.keys (j : Json) : Except String (List String) :=
  match j with
  | Json.obj fields => Except.ok (fields.map Prod.fst)
  | _ => Except.error "AttributeError: no attribute keys"

/-- Python `k in data` for a dict; containment in non-dict JSON values
is not modelled (the code only ever tests membership in registry
objects, and a non-dict there makes the operation fail either way). -/
def Json.hasMember (j : Json) (k : String) : Except String Bool :=
  match j with
  | Json.obj fields => Except.ok (fields.any (fun p => p.1 == k))
  | _ => Except.error "TypeError: argument is not a container"

/-- Reads a JSON value as a Python `str`; non-string values raise here,
standing for the `TypeError`/validation failure they would eventually
cause in the Python code. -/
def Json.asStr (j : Json) : Except String String :=
  match j with
  | Json.str s => Except.ok s
  | _ => Except.error "TypeError: expected a string"

/-- Reads a JSON value as `Optional[str]`: JSON `null` becomes `None`. -/
def Json.asStrOrNull (j : Json) : Except String (Option String) :=
  match j with
  | Json.null => Except.ok none
  | Json.str s => Except.ok (some s)
  | _ => Except.error "TypeError: expected a string or null"

/-- Python truthiness of a decoded JSON value. -/
def Json.truthy (j : Json) : Bool :=
  match j with
  | Json.null => false
  | Json.bool b => b
  | Json.str s => !(s.data.isEmpty)
  | Json.num n => n != 0
  | Json.arr xs => !xs.isEmpty
  | Json.obj fields => !fields.isEmpty

/-- Outcome of the outbound registry call made by each operation:
either the client raised (transport failure), or a response arrived
with a status code and a body whose `json()` decoding may itself
raise (malformed upstream JSON). -/
inductive Fetch where
  | fail (msg : String)
  | resp (status : Nat) (body : Except String Json)

/-- Pydantic model `PackageQuery`. -/
structure PackageQuery where
  package_name : String
  package_manager : String := "pip"
  version : Option String := none

/-- Pydantic model `DependencyQuery`. -/
structure DependencyQuery where
  package_name : String
  package_manager : String := "pip"
  version : Option String := none
  depth : Option Int := some 1

/-- Pydantic model `VersionQuery`. -/
structure VersionQuery where
  package_name : String
  package_manager : String := "pip"
  version_constraint : Option String := none

/-- Pydantic model `PackageResult`. -/
structure PackageResult where
  package_name : String
  package_manager : String
  versions : List String
  latest_version : String
  description : Option String := none
  error : Option String := none
deriving DecidableEq, Repr

/-- Pydantic model `DependencyResult`; the untyped `Dict` is modelled
as an insertion-ordered association list. -/
structure DependencyResult where
  package_name : String
  package_manager : String
  dependencies : List (String × Json)
  error : Option String := none

/-- Pydantic model `VersionResult`.  `recommended_version` has pydantic
v1 semantics: an `Optional[str]` field defaults to `None` when omitted
at construction, as in the branches of the source that leave it out. -/
structure VersionResult where
  package_name : String
  package_manager : String
  compatible_versions : List String
  recommended_version : Option String := none
  error : Option String := none
deriving DecidableEq, Repr

/-- Registry API URL table (module-level constant of the source). -/
def PACKAGE_REGISTRIES : List (String × String) :=
  [("pip", "https://pypi.org/pypi/\x7bpackage\x7d/json"),
   ("npm", "https://registry.npmjs.org/\x7bpackage\x7d")]

/-- Python dict assignment `d[k] = v` on an insertion-ordered
association list: an existing key is updated in place, a new key is
appended. -/
def setKey (m : List (String × Json)) (k : String) (v : Json) :
    List (String × Json) :=
  if m.any (fun p => p.1 == k) then
    m.map (fun p => if p.1 == k then (k, v) else p)
  else m ++ [(k, v)]

/-- Models `re.match(r"([^<>=~!]+)(.+)?", dep)`: group 1 greedily takes
the leading run of characters outside `<>=~!` (the match fails when
that run is empty), group 2 is the remainder, `None` (becoming `""`)
when the remainder is empty. -/
def depSplit (dep : String) : Option (String × String) :=
  let g1 := dep.data.takeWhile
    (fun c => !((['<', '>', '=', '~', '!'] : List Char).contains c))
  if g1.isEmpty then none
  else some (pyTrim (String.mk g1), String.mk (dep.data.drop g1.length))

/-- Body of the dependency-extraction loop for pip (source lines
148-156): each element of `requires_dist` must be a string (`re.match`
raises a `TypeError` otherwise), and each successful match stores
`dependencies[dep_name] = dep_version`. -/
def pipDepsLoop (deps : List (String × Json)) :
    List Json → Except String (List (String × Json))
  | [] => Except.ok deps
  | el :: rest => do
    let dep ← el.asStr
    match depSplit dep with
    | some (dep_name, dep_version) =>
      pipDepsLoop (setKey deps dep_name (Json.str dep_version)) rest
    | none => pipDepsLoop deps rest

/-- Body of the `try` block of `get_package_info` (source lines
58-105); any raised exception is an `Except.error`. -/
def get_package_info_body (query : PackageQuery) (fetch : Fetch) :
    Except String PackageResult :=
  let package_manager := pyLower query.package_manager
  if (PACKAGE_REGISTRIES.lookup package_manager).isNone then
    Except.ok
      { package_name := query.package_name
        package_manager := package_manager
        versions := []
        latest_version := ""
        error := some ("Unsupported package manager: " ++ package_manager) }
  else
    match fetch with
    | Fetch.fail msg => Except.error msg
    | Fetch.resp status body =>
      if status ≠ 200 then
        Except.ok
          { package_name := query.package_name
            package_manager := package_manager
            versions := []
            latest_version := ""
            error := some ("Package not found: " ++ query.package_name) }
      else do
        let data ← body
        let (versions, latest_version, description) ←
          if package_manager = "pip" then do
            let versions ← (← data.get "releases").keys
            let latest_version ← (← (← data.get "info").get "version").asStr
            let description ← (← (← data.get "info").get "summary").asStrOrNull
            Except.ok (versions, latest_version, description)
          else if package_manager = "npm" then do
            let versions ← (← data.get "versions").keys
            let latest_version ← (← (← data.get "dist-tags").get "latest").asStr
            let description ← (← data.get "description").asStrOrNull
            Except.ok (versions, latest_version, description)
          else
            Except.ok ([], "", some "")
        Except.ok
          { package_name := query.package_name
            package_manager := package_manager
            versions := versions
            latest_version := latest_version
            description := description }

/-- Operation `/package_info` (source lines 56-113): the body wrapped
by `try/except Exception`, which reshapes any fault into a
`PackageResult` with empty data fields and the exception text in
`error` (note the unlowered `query.package_manager` there, as in the
source). -/
def get_package_info (query : PackageQuery) (fetch : Fetch) : PackageResult :=
  match get_package_info_body query fetch with
  | Except.ok r => r
  | Except.error e =>
    { package_name := query.package_name
      package_manager := query.package_manager
      versions := []
      latest_version := ""
      error := some e }

/-- Body of the `try` block of `get_dependencies` (source lines
117-168). -/
def get_dependencies_body (query : DependencyQuery) (fetch : Fetch) :
    Except String DependencyResult :=
  let package_manager := pyLower query.package_manager
  if (PACKAGE_REGISTRIES.lookup package_manager).isNone then
    Except.ok
      { package_name := query.package_name
        package_manager := package_manager
        dependencies := []
        error := some ("Unsupported package manager: " ++ package_manager) }
  else
    match fetch with
    | Fetch.fail msg => Except.error msg
    | Fetch.resp status body =>
      if status ≠ 200 then
        Except.ok
          { package_name := query.package_name
            package_manager := package_manager
            dependencies := []
            error := some ("Package not found: " ++ query.package_name) }
      else do
        let data ← body
        let dependencies ←
          if package_manager = "pip" then do
            let version_to_check ←
              match query.version with
              | some v =>
                if v = "" then do (← (← data.get "info").get "version").asStr
                else Except.ok v
              | none => do (← (← data.get "info").get "version").asStr
            if (← (← data.get "releases").hasMember version_to_check) then do
              let requires_dist ← (← data.get "info").getD "requires_dist"
                (Json.arr [])
              if requires_dist.truthy then
                match requires_dist with
                | Json.arr els => pipDepsLoop [] els
                | _ => Except.error "TypeError: requires_dist is not iterable"
              else Except.ok []
            else Except.ok []
          else if package_manager = "npm" then do
            let version_to_check ←
              match query.version with
              | some v =>
                if v = "" then do (← (← data.get "dist-tags").get "latest").asStr
                else Except.ok v
              | none => do (← (← data.get "dist-tags").get "latest").asStr
            if (← (← data.get "versions").hasMember version_to_check) then do
              let deps ← (← (← data.get "versions").get version_to_check).getD
                "dependencies" (Json.obj [])
              match deps with
              | Json.obj fields => Except.ok fields
              | _ => Except.error "validation error: dependencies is not a dict"
            else Except.ok []
          else Except.ok []
        Except.ok
          { package_name := query.package_name
            package_manager := package_manager
            dependencies := dependencies }

/-- Operation `/dependencies` (source lines 115-175): the body wrapped
by `try/except Exception`. -/
def get_dependencies (query : DependencyQuery) (fetch : Fetch) :
    DependencyResult :=
  match get_dependencies_body query fetch with
  | Except.ok r => r
  | Except.error e =>
    { package_name := query.package_name
      package_manager := query.package_manager
      dependencies := []
      error := some e }

/-- Body of the `try` block of `get_compatible_versions` (source lines
179-255): registry lookup, fetch, extraction of `all_versions` and
`latest_version`, then the resolution step `resolveCore`. -/
def get_compatible_versions_body (query : VersionQuery) (fetch : Fetch) :
    Except String VersionResult :=
  let package_manager := pyLower query.package_manager
  if (PACKAGE_REGISTRIES.lookup package_manager).isNone then
    Except.ok
      { package_name := query.package_name
        package_manager := package_manager
        compatible_versions := []
        error := some ("Unsupported package manager: " ++ package_manager) }
  else
    match fetch with
    | Fetch.fail msg => Except.error msg
    | Fetch.resp status body =>
      if status ≠ 200 then
        Except.ok
          { package_name := query.package_name
            package_manager := package_manager
            compatible_versions := []
            error := some ("Package not found: " ++ query.package_name) }
      else do
        let data ← body
        let (all_versions, latest_version) ←
          if package_manager = "pip" then do
            let all_versions ← (← data.get "releases").keys
            let latest_version ← (← (← data.get "info").get "version").asStr
            Except.ok (all_versions, latest_version)
          else do
            let all_versions ← (← data.get "versions").keys
            let latest_version ← (← (← data.get "dist-tags").get "latest").asStr
            Except.ok (all_versions, latest_version)
        let outcome ← resolveCore all_versions query.version_constraint
          latest_version
        Except.ok
          { package_name := query.package_name
            package_manager := package_manager
            compatible_versions := outcome.compatible_versions
            recommended_version := outcome.recommended_version }

/-- Operation `/compatible_versions` (source lines 177-262): the body
wrapped by `try/except Exception`. -/
def get_compatible_versions (query : VersionQuery) (fetch : Fetch) :
    VersionResult :=
  match get_compatible_versions_body query fetch with
  | Except.ok r => r
  | Except.error e =>
    { package_name := query.package_name
      package_manager := query.package_manager
      compatible_versions := []
      error := some e }

/-- Operation `/supported_package_managers` (source lines 264-266). -/
def get_supported_package_managers : List String :=
  PACKAGE_REGISTRIES.map Prod.fst

/-- Operation `/health` (source lines 268-270). -/
def health_check : String := "healthy"

/-- Tests whether the constraint's leading operator is one of the six
the source recognizes (in its dispatch order, multi-character operators
before their single-character prefixes). -/
def recognizedOp (c : String) : Bool :=
  pyStartsWith c ">=" || pyStartsWith c ">" || pyStartsWith c "<=" ||
    pyStartsWith c "<" || pyStartsWith c "==" || pyStartsWith c "~="

/-- The list is ordered descending by parsed semantic version: every
element's parsed version is greater than or equal to that of every
later element. -/
def descendingByVersion (l : List String) : Prop :=
  l.Pairwise (fun a b => vgeB (parseKey a) (parseKey b) = true)

/-- Prefix required by a `~=` constraint, in the spec's words: all
components of the operand except the last, joined by `.`, with a
trailing `.` appended. -/
def tildePref (w : String) : String :=
  joinDot (pySplitDot w).dropLast ++ "."

/-- Failing fetches: the transport raised, the response status was not
200, or the response body was malformed JSON (its decoding raises). -/
def fetchFailureB : Fetch → Bool
  | Fetch.fail _ => true
  | Fetch.resp status body =>
    (status != 200) ||
      (match body with
       | Except.error _ => true
       | Except.ok _ => false)

/-- The query's registry selector, lowercased, is not a supported
registry. -/
def unsupportedManagerB (pm : String) : Bool :=
  (PACKAGE_REGISTRIES.lookup (pyLower pm)).isNone

/-! ### Order-theoretic lemmas about the version comparison -/

lemma lexCmp_self : ∀ a : List Nat, lexCmp a a = Ordering.eq
  | [] => rfl
  | x :: xs => by simp [lexCmp, lexCmp_self xs]

lemma lexCmp_swap : ∀ a b : List Nat, lexCmp b a = (lexCmp a b).swap
  | [], [] => rfl
  | [], _ :: _ => rfl
  | _ :: _, [] => rfl
  | a :: as, b :: bs => by
    simp only [lexCmp]
    rcases lt_trichotomy a b with h | h | h
    · simp [h, not_lt.mpr (le_of_lt h), Ordering.swap]
    · subst h
      simp [lexCmp_swap as bs]
    · simp [h, not_lt.mpr (le_of_lt h), Ordering.swap]

lemma lexCmp_le_trans : ∀ a b c : List Nat,
    lexCmp a b ≠ Ordering.gt → lexCmp b c ≠ Ordering.gt →
      lexCmp a c ≠ Ordering.gt
  | [], _, [] => fun _ _ => by simp [lexCmp]
  | [], _, _ :: _ => fun _ _ => by simp [lexCmp]
  | _ :: _, [], _ => fun h1 _ => absurd rfl h1
  | _ :: _, _ :: _, [] => fun _ h2 => absurd rfl h2
  | x :: xs, y :: ys, z :: zs => fun h1 h2 => by
    simp only [lexCmp] at h1 h2 ⊢
    rcases lt_trichotomy x y with hxy | hxy | hxy
    · rcases lt_trichotomy y z with hyz | hyz | hyz
      · simp [lt_trans hxy hyz]
      · subst hyz
        simp [hxy]
      · simp [not_lt.mpr (le_of_lt hyz), hyz] at h2
    · subst hxy
      simp only [lt_self_iff_false, if_false] at h1
      rcases lt_trichotomy x z with hyz | hyz | hyz
      · simp [hyz]
      · subst hyz
        simp only [lt_self_iff_false, if_false] at h2 ⊢
        exact lexCmp_le_trans xs ys zs h1 h2
      · simp [not_lt.mpr (le_of_lt hyz), hyz] at h2
    · simp [not_lt.mpr (le_of_lt hxy), hxy] at h1

lemma swap_eq_gt {o : Ordering} : o.swap = Ordering.gt ↔ o = Ordering.lt := by
  cases o <;> simp [Ordering.swap]

lemma cmpVersion_self (a : List Nat) : cmpVersion a a = Ordering.eq :=
  lexCmp_self _

lemma cmpVersion_swap (a b : List Nat) :
    cmpVersion b a = (cmpVersion a b).swap :=
  lexCmp_swap _ _

lemma cmpVersion_ge_trans {a b c : List Nat}
    (h1 : cmpVersion a b ≠ Ordering.lt) (h2 : cmpVersion b c ≠ Ordering.lt) :
    cmpVersion a c ≠ Ordering.lt := by
  have h1' : cmpVersion b a ≠ Ordering.gt := by
    rw [cmpVersion_swap a b]
    intro hh
    exact h1 (swap_eq_gt.mp hh)
  have h2' : cmpVersion c b ≠ Ordering.gt := by
    rw [cmpVersion_swap b c]
    intro hh
    exact h2 (swap_eq_gt.mp hh)
  have h3 : cmpVersion c a ≠ Ordering.gt := lexCmp_le_trans _ _ _ h2' h1'
  rw [cmpVersion_swap a c] at h3
  intro hh
  exact h3 (by rw [hh]; rfl)

lemma cmpVersion_total (a b : List Nat) :
    cmpVersion a b ≠ Ordering.lt ∨ cmpVersion b a ≠ Ordering.lt := by
  rw [cmpVersion_swap a b]
  cases h : cmpVersion a b <;> simp [Ordering.swap]

instance : IsTotal (String × List Nat) keyGE :=
  ⟨fun a b => cmpVersion_total a.2 b.2⟩

instance : IsTrans (String × List Nat) keyGE :=
  ⟨fun _ _ _ h1 h2 => cmpVersion_ge_trans h1 h2⟩

lemma vgeB_iff {a b : List Nat} :
    vgeB a b = true ↔ cmpVersion a b ≠ Ordering.lt := by
  unfold vgeB
  cases h : cmpVersion a b <;> simp <;> decide

lemma vgeB_refl (a : List Nat) : vgeB a a = true :=
  vgeB_iff.mpr (by rw [cmpVersion_self]; simp)

/-! ### Lemmas about string prefixes (operator dispatch) -/

lemma isPrefixOf_head {x : Char} {xs : List Char} {c : String}
    (h : List.isPrefixOf (x :: xs) c.data = true) :
    ∃ t, c.data = x :: t ∧ List.isPrefixOf xs t = true := by
  cases hc : c.data with
  | nil => rw [hc] at h; simp [List.isPrefixOf] at h
  | cons y t =>
    rw [hc] at h
    simp only [List.isPrefixOf, Bool.and_eq_true, beq_iff_eq] at h
    exact ⟨t, by rw [h.1], h.2⟩

lemma isPrefixOf_cons_ne {a b : Char} {as t : List Char} (hab : a ≠ b) :
    List.isPrefixOf (a :: as) (b :: t) = false := by
  simp [List.isPrefixOf, hab]

lemma ne_empty_of_isPrefixOf {x : Char} {xs : List Char} {c : String}
    (h : List.isPrefixOf (x :: xs) c.data = true) : c ≠ "" := by
  obtain ⟨t, ht, -⟩ := isPrefixOf_head h
  intro he
  rw [he] at ht
  cases ht

/-- Operator dispatch facts when the constraint starts with `==`: the
four comparison tests all fail and the constraint is non-empty. -/
lemma startsTests_of_eqeq {c : String} (h : pyStartsWith c "==" = true) :
    pyStartsWith c ">=" = false ∧ pyStartsWith c ">" = false ∧
      pyStartsWith c "<=" = false ∧ pyStartsWith c "<" = false ∧ c ≠ "" := by
  have h' : List.isPrefixOf ['=', '='] c.data = true := h
  obtain ⟨t, ht, -⟩ := isPrefixOf_head h'
  refine ⟨?_, ?_, ?_, ?_, ne_empty_of_isPrefixOf h'⟩ <;>
    · show List.isPrefixOf _ c.data = false
      rw [ht]
      exact isPrefixOf_cons_ne (by decide)

/-- Operator dispatch facts when the constraint starts with `~=`: the
five earlier tests all fail and the constraint is non-empty. -/
lemma startsTests_of_tilde {c : String} (h : pyStartsWith c "~=" = true) :
    pyStartsWith c ">=" = false ∧ pyStartsWith c ">" = false ∧
      pyStartsWith c "<=" = false ∧ pyStartsWith c "<" = false ∧
      pyStartsWith c "==" = false ∧ c ≠ "" := by
  have h' : List.isPrefixOf ['~', '='] c.data = true := h
  obtain ⟨t, ht, -⟩ := isPrefixOf_head h'
  refine ⟨?_, ?_, ?_, ?_, ?_, ne_empty_of_isPrefixOf h'⟩ <;>
    · show List.isPrefixOf _ c.data = false
      rw [ht]
      exact isPrefixOf_cons_ne (by decide)

lemma ne_empty_of_pyStartsWith_ge {c : String}
    (h : pyStartsWith c ">=" = true) : c ≠ "" :=
  ne_empty_of_isPrefixOf (show List.isPrefixOf ['>', '='] c.data = true from h)

lemma ne_empty_of_pyStartsWith_gt {c : String}
    (h : pyStartsWith c ">" = true) : c ≠ "" :=
  ne_empty_of_isPrefixOf (show List.isPrefixOf ['>'] c.data = true from h)

lemma ne_empty_of_pyStartsWith_le {c : String}
    (h : pyStartsWith c "<=" = true) : c ≠ "" :=
  ne_empty_of_isPrefixOf (show List.isPrefixOf ['<', '='] c.data = true from h)

lemma ne_empty_of_pyStartsWith_lt {c : String}
    (h : pyStartsWith c "<" = true) : c ≠ "" :=
  ne_empty_of_isPrefixOf (show List.isPrefixOf ['<'] c.data = true from h)

/-! ### Lemmas about parsing, filtering and sorting -/

lemma parseVersion_isOk_exists {v : String}
    (h : (parseVersion v).isOk = true) : ∃ k, parseVersion v = Except.ok k := by
  cases hv : parseVersion v with
  | ok k => exact ⟨k, rfl⟩
  | error e => rw [hv] at h; simp [Except.isOk, Except.toBool] at h

lemma parseKey_eq {v : String} {k : List Nat}
    (h : parseVersion v = Except.ok k) : parseKey v = k := by
  simp [parseKey, h]

lemma parseAll_ok : ∀ {vs : List String},
    (∀ v ∈ vs, (parseVersion v).isOk = true) →
    ∃ ps, parseAll vs = Except.ok ps ∧ ps.map Prod.fst = vs ∧
      ∀ p ∈ ps, parseVersion p.1 = Except.ok p.2
  | [], _ => ⟨[], rfl, rfl, by simp⟩
  | v :: rest, h => by
    obtain ⟨k, hk⟩ := parseVersion_isOk_exists (h v (by simp))
    obtain ⟨ps, hps, hmap, hkeys⟩ :
        ∃ ps, parseAll rest = Except.ok ps ∧ ps.map Prod.fst = rest ∧
          ∀ p ∈ ps, parseVersion p.1 = Except.ok p.2 :=
      parseAll_ok (fun w hw => h w (by simp [hw]))
    refine ⟨(v, k) :: ps, ?_, ?_, ?_⟩
    · simp [parseAll, hk, hps, bind, Except.bind]
    · simp [hmap]
    · intro p hp
      rcases List.mem_cons.mp hp with hp1 | hp2
      · rw [hp1]; exact hk
      · exact hkeys p hp2

lemma sortVersionsDesc_ok {vs : List String}
    (h : ∀ v ∈ vs, (parseVersion v).isOk = true) :
    ∃ l, sortVersionsDesc vs = Except.ok l ∧ l.Perm vs ∧
      l.Pairwise (fun a b => vgeB (parseKey a) (parseKey b) = true) := by
  obtain ⟨ps, hps, hmap, hkeys⟩ := parseAll_ok h
  have hperm : (List.insertionSort keyGE ps).Perm ps :=
    List.perm_insertionSort keyGE ps
  refine ⟨(List.insertionSort keyGE ps).map Prod.fst, ?_, ?_, ?_⟩
  · simp [sortVersionsDesc, hps, Except.map]
  · have := hperm.map Prod.fst
    rw [hmap] at this
    exact this
  · rw [List.pairwise_map]
    have hsorted : (List.insertionSort keyGE ps).Pairwise keyGE :=
      List.sorted_insertionSort keyGE ps
    refine hsorted.imp_of_mem ?_
    intro p q hp hq hr
    rw [parseKey_eq (hkeys p (hperm.mem_iff.mp hp)),
      parseKey_eq (hkeys q (hperm.mem_iff.mp hq))]
    exact vgeB_iff.mpr hr

lemma filterCmp_ok {operand : String} {m : List Nat}
    {keep : List Nat → List Nat → Bool}
    (hm : parseVersion operand = Except.ok m) :
    ∀ {vs : List String}, (∀ v ∈ vs, (parseVersion v).isOk = true) →
      filterCmp vs operand keep =
        Except.ok (vs.filter (fun v => keep (parseKey v) m))
  | [], _ => rfl
  | v :: rest, h => by
    obtain ⟨k, hk⟩ := parseVersion_isOk_exists (h v (by simp))
    have ih : filterCmp rest operand keep =
        Except.ok (rest.filter (fun v => keep (parseKey v) m)) :=
      filterCmp_ok hm (fun w hw => h w (by simp [hw]))
    simp only [filterCmp, hk, hm, ih, bind, Except.bind, List.filter_cons,
      parseKey_eq hk]

lemma filterCmp_err {operand : String} {keep : List Nat → List Nat → Bool} :
    ∀ {vs : List String}, (∃ v ∈ vs, (parseVersion v).isOk = false) →
      ∃ msg, filterCmp vs operand keep = Except.error msg
  | [], h => by simp at h
  | v :: rest, h => by
    cases hv : parseVersion v with
    | error e => exact ⟨e, by simp [filterCmp, hv, bind, Except.bind]⟩
    | ok k =>
      cases hm : parseVersion operand with
      | error e => exact ⟨e, by simp [filterCmp, hv, hm, bind, Except.bind]⟩
      | ok m =>
        obtain ⟨w, hw, hbad⟩ := h
        have hwrest : w ∈ rest := by
          rcases List.mem_cons.mp hw with h1 | h2
          · rw [h1, hv] at hbad; simp [Except.isOk, Except.toBool] at hbad
          · exact h2
        obtain ⟨msg, hmsg⟩ : ∃ u, filterCmp rest operand keep =
            Except.error u :=
          filterCmp_err ⟨w, hwrest, hbad⟩
        exact ⟨msg, by simp [filterCmp, hv, hm, hmsg, bind, Except.bind]⟩

/-! ### Structure of the resolution step -/

lemma resolveCore_apply_empty {vs : List String} {c : String}
    {latest : String} {al : Bool} (hc : c ≠ "")
    (ha : applyConstraint vs c = Except.ok (al, [])) :
    resolveCore vs (some c) latest = Except.ok ⟨vs, [], none⟩ := by
  simp [resolveCore, hc, ha, bind, Except.bind]

lemma resolveCore_apply_cons {vs : List String} {c : String}
    (latest : String) {al : Bool} {v : String} {rest l : List String}
    (hc : c ≠ "") (ha : applyConstraint vs c = Except.ok (al, v :: rest))
    (hs : sortVersionsDesc (v :: rest) = Except.ok l) :
    resolveCore vs (some c) latest =
      Except.ok ⟨if al then l else vs, l, l.head?⟩ := by
  simp [resolveCore, hc, ha, hs, bind, Except.bind]

lemma resolveCore_apply_err {vs : List String} {c : String}
    {latest : String} {msg : String} (hc : c ≠ "")
    (ha : applyConstraint vs c = Except.error msg) :
    resolveCore vs (some c) latest = Except.error msg := by
  simp [resolveCore, hc, ha, bind, Except.bind]

lemma map_pair_fst {x : Except String (List String)} {al : Bool}
    {ms : List String}
    (h : Except.map (fun l => ((false : Bool), l)) x = Except.ok (al, ms)) :
    al = false := by
  cases x with
  | ok l =>
    simp [Except.map] at h
    exact h.1
  | error e => simp [Except.map] at h

lemma applyConstraint_fst_false {vs : List String} {c : String} {al : Bool}
    {ms : List String} (hrec : recognizedOp c = true)
    (ha : applyConstraint vs c = Except.ok (al, ms)) : al = false := by
  by_cases h1 : pyStartsWith c ">=" = true
  · simp only [applyConstraint, h1, if_true] at ha
    exact map_pair_fst ha
  by_cases h2 : pyStartsWith c ">" = true
  · simp only [applyConstraint, h1, h2, if_true, if_false, Bool.false_eq_true]
      at ha
    exact map_pair_fst ha
  by_cases h3 : pyStartsWith c "<=" = true
  · simp only [applyConstraint, h1, h2, h3, if_true, if_false,
      Bool.false_eq_true] at ha
    exact map_pair_fst ha
  by_cases h4 : pyStartsWith c "<" = true
  · simp only [applyConstraint, h1, h2, h3, h4, if_true, if_false,
      Bool.false_eq_true] at ha
    exact map_pair_fst ha
  by_cases h5 : pyStartsWith c "==" = true
  · simp only [applyConstraint, h1, h2, h3, h4, h5, if_true, if_false,
      Bool.false_eq_true] at ha
    exact (Prod.mk.injEq .. ▸ Except.ok.inj ha).1.symm
  by_cases h6 : pyStartsWith c "~=" = true
  · simp only [applyConstraint, h1, h2, h3, h4, h5, h6, if_true, if_false,
      Bool.false_eq_true] at ha
    exact (Prod.mk.injEq .. ▸ Except.ok.inj ha).1.symm
  · exfalso
    simp only [recognizedOp, Bool.or_eq_true] at hrec
    rcases hrec with ((((hh | hh) | hh) | hh) | hh) | hh <;> simp_all

lemma applyConstraint_unrecognized {vs : List String} {c : String}
    (hrec : recognizedOp c = false) :
    applyConstraint vs c = Except.ok (true, vs) := by
  simp only [recognizedOp, Bool.or_eq_false_iff] at hrec
  obtain ⟨⟨⟨⟨⟨n1, n2⟩, n3⟩, n4⟩, n5⟩, n6⟩ := hrec
  simp [applyConstraint, n1, n2, n3, n4, n5, n6]

lemma startsTests_of_le {c : String} (h : pyStartsWith c "<=" = true) :
    pyStartsWith c ">=" = false ∧ pyStartsWith c ">" = false := by
  have h' : List.isPrefixOf ['<', '='] c.data = true := h
  obtain ⟨t, ht, -⟩ := isPrefixOf_head h'
  constructor <;>
    · show List.isPrefixOf _ c.data = false
      rw [ht]
      exact isPrefixOf_cons_ne (by decide)

lemma startsTests_of_lt {c : String} (h : pyStartsWith c "<" = true) :
    pyStartsWith c ">=" = false ∧ pyStartsWith c ">" = false := by
  have h' : List.isPrefixOf ['<'] c.data = true := h
  obtain ⟨t, ht, -⟩ := isPrefixOf_head h'
  constructor <;>
    · show List.isPrefixOf _ c.data = false
      rw [ht]
      exact isPrefixOf_cons_ne (by decide)

lemma except_bind_ok {α β : Type} {x : Except String α}
    {g : α → Except String β} {b : β} (h : x >>= g = Except.ok b) :
    ∃ a, x = Except.ok a ∧ g a = Except.ok b := by
  cases x with
  | ok a => exact ⟨a, rfl, h⟩
  | error e => simp [bind, Except.bind] at h

lemma ne_empty_of_recognized {c : String} (h : recognizedOp c = true) :
    c ≠ "" := by
  simp only [recognizedOp, Bool.or_eq_true] at h
  rcases h with ((((h | h) | h) | h) | h) | h
  · exact ne_empty_of_pyStartsWith_ge h
  · exact ne_empty_of_pyStartsWith_gt h
  · exact ne_empty_of_pyStartsWith_le h
  · exact ne_empty_of_pyStartsWith_lt h
  · exact (startsTests_of_eqeq h).2.2.2.2
  · exact (startsTests_of_tilde h).2.2.2.2.2

lemma get_package_info_failure (q : PackageQuery) (f : Fetch)
    (h : unsupportedManagerB q.package_manager = true ∨
      fetchFailureB f = true) :
    (get_package_info q f).error.isSome = true ∧
    (get_package_info q f).versions = [] ∧
    (get_package_info q f).latest_version = "" ∧
    (get_package_info q f).description = none := by
  by_cases hu : (PACKAGE_REGISTRIES.lookup (pyLower q.package_manager)).isNone
    = true
  · simp [get_package_info, get_package_info_body, hu]
  · have hf : fetchFailureB f = true := by
      rcases h with h | h
      · exact absurd (by simpa [unsupportedManagerB] using h) hu
      · exact h
    cases f with
    | fail msg => simp [get_package_info, get_package_info_body, hu]
    | resp status body =>
      by_cases hst : status = 200
      · subst hst
        cases body with
        | ok data => simp [fetchFailureB] at hf
        | error msg =>
          simp [get_package_info, get_package_info_body, hu, bind, Except.bind]
      · simp [get_package_info, get_package_info_body, hu, hst]

lemma get_package_info_body_sound (q : PackageQuery) (f : Fetch)
    {r : PackageResult} (hb : get_package_info_body q f = Except.ok r) :
    r.error = none ∨ (r.versions = [] ∧ r.latest_version = "") := by
  by_cases hu : (PACKAGE_REGISTRIES.lookup (pyLower q.package_manager)).isNone
    = true
  · have hval : get_package_info_body q f = Except.ok
        { package_name := q.package_name
          package_manager := pyLower q.package_manager
          versions := []
          latest_version := ""
          error := some ("Unsupported package manager: "
            ++ pyLower q.package_manager) } := by
      simp [get_package_info_body, hu]
    rw [hval] at hb
    cases Except.ok.inj hb
    right
    exact ⟨rfl, rfl⟩
  · cases f with
    | fail msg =>
      have hval : get_package_info_body q (Fetch.fail msg) =
          Except.error msg := by
        simp [get_package_info_body, hu]
      rw [hval] at hb
      cases hb
    | resp status body =>
      by_cases hst : status = 200
      · subst hst
        cases body with
        | error msg =>
          have hval : get_package_info_body q
              (Fetch.resp 200 (Except.error msg)) = Except.error msg := by
            simp [get_package_info_body, hu, bind, Except.bind]
          rw [hval] at hb
          cases hb
        | ok data =>
          simp only [get_package_info_body] at hb
          rw [if_neg hu] at hb
          rw [if_neg (by simp)] at hb
          obtain ⟨d, -, hb⟩ := except_bind_ok hb
          by_cases hp : pyLower q.package_manager = "pip"
          · rw [if_pos hp] at hb
            repeat obtain ⟨_, -, hb⟩ := except_bind_ok hb
            cases Except.ok.inj hb
            left
            rfl
          · rw [if_neg hp] at hb
            by_cases hn : pyLower q.package_manager = "npm"
            · rw [if_pos hn] at hb
              repeat obtain ⟨_, -, hb⟩ := except_bind_ok hb
              cases Except.ok.inj hb
              left
              rfl
            · rw [if_neg hn] at hb
              repeat obtain ⟨_, -, hb⟩ := except_bind_ok hb
              cases Except.ok.inj hb
              left
              rfl
      · have hval : get_package_info_body q (Fetch.resp status body) =
            Except.ok
              { package_name := q.package_name
                package_manager := pyLower q.package_manager
                versions := []
                latest_version := ""
                error := some ("Package not found: " ++ q.package_name) } := by
          simp [get_package_info_body, hu, hst]
        rw [hval] at hb
        cases Except.ok.inj hb
        right
        exact ⟨rfl, rfl⟩

lemma get_package_info_sound (q : PackageQuery) (f : Fetch) :
    (get_package_info q f).error = none ∨
      ((get_package_info q f).versions = [] ∧
        (get_package_info q f).latest_version = "") := by
  cases hb : get_package_info_body q f with
  | error e =>
    right
    simp [get_package_info, hb]
  | ok r =>
    have hr : get_package_info q f = r := by simp [get_package_info, hb]
    rw [hr]
    exact get_package_info_body_sound q f hb

lemma get_dependencies_failure (q : DependencyQuery) (f : Fetch)
    (h : unsupportedManagerB q.package_manager = true ∨
      fetchFailureB f = true) :
    (get_dependencies q f).error.isSome = true ∧
    (get_dependencies q f).dependencies = [] := by
  by_cases hu : (PACKAGE_REGISTRIES.lookup (pyLower q.package_manager)).isNone
    = true
  · simp [get_dependencies, get_dependencies_body, hu]
  · have hf : fetchFailureB f = true := by
      rcases h with h | h
      · exact absurd (by simpa [unsupportedManagerB] using h) hu
      · exact h
    cases f with
    | fail msg => simp [get_dependencies, get_dependencies_body, hu]
    | resp status body =>
      by_cases hst : status = 200
      · subst hst
        cases body with
        | ok data => simp [fetchFailureB] at hf
        | error msg =>
          simp [get_dependencies, get_dependencies_body, hu, bind, Except.bind]
      · simp [get_dependencies, get_dependencies_body, hu, hst]

lemma get_dependencies_body_sound (q : DependencyQuery) (f : Fetch)
    {r : DependencyResult} (hb : get_dependencies_body q f = Except.ok r) :
    r.error = none ∨ r.dependencies = [] := by
  by_cases hu : (PACKAGE_REGISTRIES.lookup (pyLower q.package_manager)).isNone
    = true
  · have hval : get_dependencies_body q f = Except.ok
        { package_name := q.package_name
          package_manager := pyLower q.package_manager
          dependencies := []
          error := some ("Unsupported package manager: "
            ++ pyLower q.package_manager) } := by
      simp [get_dependencies_body, hu]
    rw [hval] at hb
    cases Except.ok.inj hb
    right
    rfl
  · cases f with
    | fail msg =>
      have hval : get_dependencies_body q (Fetch.fail msg) =
          Except.error msg := by
        simp [get_dependencies_body, hu]
      rw [hval] at hb
      cases hb
    | resp status body =>
      by_cases hst : status = 200
      · subst hst
        cases body with
        | error msg =>
          have hval : get_dependencies_body q
              (Fetch.resp 200 (Except.error msg)) = Except.error msg := by
            simp [get_dependencies_body, hu, bind, Except.bind]
          rw [hval] at hb
          cases hb
        | ok data =>
          simp only [get_dependencies_body] at hb
          rw [if_neg hu] at hb
          rw [if_neg (by simp)] at hb
          obtain ⟨d, -, hb⟩ := except_bind_ok hb
          repeat'
            first
            | (obtain ⟨_, -, hb⟩ := except_bind_ok hb)
            | (split at hb)
          all_goals
            cases Except.ok.inj hb
            left
            rfl
      · have hval : get_dependencies_body q (Fetch.resp status body) =
            Except.ok
              { package_name := q.package_name
                package_manager := pyLower q.package_manager
                dependencies := []
                error := some ("Package not found: " ++ q.package_name) } := by
          simp [get_dependencies_body, hu, hst]
        rw [hval] at hb
        cases Except.ok.inj hb
        right
        rfl

lemma get_dependencies_sound (q : DependencyQuery) (f : Fetch) :
    (get_dependencies q f).error = none ∨
      (get_dependencies q f).dependencies = [] := by
  cases hb : get_dependencies_body q f with
  | error e =>
    right
    simp [get_dependencies, hb]
  | ok r =>
    have hr : get_dependencies q f = r := by simp [get_dependencies, hb]
    rw [hr]
    exact get_dependencies_body_sound q f hb

lemma get_compatible_versions_failure (q : VersionQuery) (f : Fetch)
    (h : unsupportedManagerB q.package_manager = true ∨
      fetchFailureB f = true) :
    (get_compatible_versions q f).error.isSome = true ∧
    (get_compatible_versions q f).compatible_versions = [] ∧
    (get_compatible_versions q f).recommended_version = none := by
  by_cases hu : (PACKAGE_REGISTRIES.lookup (pyLower q.package_manager)).isNone
    = true
  · simp [get_compatible_versions, get_compatible_versions_body, hu]
  · have hf : fetchFailureB f = true := by
      rcases h with h | h
      · exact absurd (by simpa [unsupportedManagerB] using h) hu
      · exact h
    cases f with
    | fail msg =>
      simp [get_compatible_versions, get_compatible_versions_body, hu]
    | resp status body =>
      by_cases hst : status = 200
      · subst hst
        cases body with
        | ok data => simp [fetchFailureB] at hf
        | error msg =>
          simp [get_compatible_versions, get_compatible_versions_body, hu,
            bind, Except.bind]
      · simp [get_compatible_versions, get_compatible_versions_body, hu, hst]

lemma get_compatible_versions_body_sound (q : VersionQuery) (f : Fetch)
    {r : VersionResult} (hb : get_compatible_versions_body q f = Except.ok r) :
    r.error = none ∨ r.compatible_versions = [] := by
  by_cases hu : (PACKAGE_REGISTRIES.lookup (pyLower q.package_manager)).isNone
    = true
  · have hval : get_compatible_versions_body q f = Except.ok
        { package_name := q.package_name
          package_manager := pyLower q.package_manager
          compatible_versions := []
          error := some ("Unsupported package manager: "
            ++ pyLower q.package_manager) } := by
      simp [get_compatible_versions_body, hu]
    rw [hval] at hb
    cases Except.ok.inj hb
    right
    rfl
  · cases f with
    | fail msg =>
      have hval : get_compatible_versions_body q (Fetch.fail msg) =
          Except.error msg := by
        simp [get_compatible_versions_body, hu]
      rw [hval] at hb
      cases hb
    | resp status body =>
      by_cases hst : status = 200
      · subst hst
        cases body with
        | error msg =>
          have hval : get_compatible_versions_body q
              (Fetch.resp 200 (Except.error msg)) = Except.error msg := by
            simp [get_compatible_versions_body, hu, bind, Except.bind]
          rw [hval] at hb
          cases hb
        | ok data =>
          simp only [get_compatible_versions_body] at hb
          rw [if_neg hu] at hb
          rw [if_neg (by simp)] at hb
          obtain ⟨d, -, hb⟩ := except_bind_ok hb
          repeat'
            first
            | (obtain ⟨_, -, hb⟩ := except_bind_ok hb)
            | (split at hb)
          all_goals
            cases Except.ok.inj hb
            left
            rfl
      · have hval : get_compatible_versions_body q (Fetch.resp status body) =
            Except.ok
              { package_name := q.package_name
                package_manager := pyLower q.package_manager
                compatible_versions := []
                error := some ("Package not found: " ++ q.package_name) } := by
          simp [get_compatible_versions_body, hu, hst]
        rw [hval] at hb
        cases Except.ok.inj hb
        right
        rfl

lemma get_compatible_versions_sound (q : VersionQuery) (f : Fetch) :
    (get_compatible_versions q f).error = none ∨
      (get_compatible_versions q f).compatible_versions = [] := by
  cases hb : get_compatible_versions_body q f with
  | error e =>
    right
    simp [get_compatible_versions, hb]
  | ok r =>
    have hr : get_compatible_versions q f = r := by
      simp [get_compatible_versions, hb]
    rw [hr]
    exact get_compatible_versions_body_sound q f hb

/-! ### The claims -/

/-- C9: with an absent or empty constraint, the result is the full
input candidate set, unchanged in content and order, and the
recommendation is the externally supplied registry-reported latest
version, not a value derived from sorting the candidates. -/
theorem C9_no_constraint_passthrough (vs : List String) (latest : String) :
    resolveCore vs none latest = Except.ok ⟨vs, vs, some latest⟩ ∧
    resolveCore vs (some "") latest = Except.ok ⟨vs, vs, some latest⟩ :=
  ⟨rfl, by simp [resolveCore]⟩

/-- C1 fails as stated: for the unrecognized-operator constraint `^1`
the candidate list object is sorted in place through the
`compatible_versions = all_versions` alias, so after the operation the
input candidate list's order has changed (`["1.0.0", "2.0.0"]` became
`["2.0.0", "1.0.0"]`). -/
theorem C1_counterexample :
    resolveCore ["1.0.0", "2.0.0"] (some "^1") "9.9.9" =
      Except.ok ⟨["2.0.0", "1.0.0"], ["2.0.0", "1.0.0"], some "2.0.0"⟩ ∧
    (["2.0.0", "1.0.0"] : List String) ≠ ["1.0.0", "2.0.0"] :=
  ⟨by decide, by decide⟩

/-- C1 (amended): resolution leaves the input candidate list unchanged
(contents and order) whenever the constraint is absent, empty, or
carries a recognized operator; only the unrecognized-operator
fallthrough mutates it, by sorting it in place. -/
theorem C1_no_mutation_unless_unrecognized :
    ∀ (vs : List String) (c latest : String) (out : ResolveOutcome),
      (resolveCore vs none latest = Except.ok out →
        out.all_versions_after = vs) ∧
      (resolveCore vs (some c) latest = Except.ok out →
        c = "" ∨ recognizedOp c = true → out.all_versions_after = vs) := by
  intro vs c latest out
  constructor
  · intro h
    cases Except.ok.inj h
    rfl
  · intro h hrec
    rcases hrec with he | hrec
    · subst he
      have hval : resolveCore vs (some "") latest =
          Except.ok ⟨vs, vs, some latest⟩ := by simp [resolveCore]
      rw [hval] at h
      cases Except.ok.inj h
      rfl
    · have hc : c ≠ "" := ne_empty_of_recognized hrec
      cases ha : applyConstraint vs c with
      | error e =>
        rw [resolveCore_apply_err hc ha] at h
        cases h
      | ok pr =>
        obtain ⟨al, ms⟩ := pr
        have hal : al = false := applyConstraint_fst_false hrec ha
        subst hal
        cases ms with
        | nil =>
          rw [resolveCore_apply_empty hc ha] at h
          cases Except.ok.inj h
          rfl
        | cons v rest =>
          cases hs : sortVersionsDesc (v :: rest) with
          | error msg =>
            have hval : resolveCore vs (some c) latest = Except.error msg := by
              simp [resolveCore, hc, ha, hs, bind, Except.bind]
            rw [hval] at h
            cases h
          | ok l =>
            rw [resolveCore_apply_cons latest hc ha hs] at h
            cases Except.ok.inj h
            simp

/-- Witness for the amended C1 theorem at a concrete
recognized-operator input. -/
theorem C1_witness :
    (⟨["1.5.0", "1.0.0"], ["1.5.0"], some "1.5.0"⟩ :
        ResolveOutcome).all_versions_after = ["1.5.0", "1.0.0"] :=
  (C1_no_mutation_unless_unrecognized ["1.5.0", "1.0.0"] ">=1.2" "1.5.0"
      ⟨["1.5.0", "1.0.0"], ["1.5.0"], some "1.5.0"⟩).2
    (by decide) (Or.inr (by decide))

/-- C5: an `==` constraint filters by exact raw-string equality with
the operand — not semantic-version equality: concretely, candidate
`1.2.0` does not match `==1.2` even though the two versions are
semantically equal, leaving no matches and no recommendation. -/
theorem C5_exact_string_match :
    (∀ (vs : List String) (c : String), pyStartsWith c "==" = true →
      applyConstraint vs c =
        Except.ok (false, vs.filter (fun v => v == pyTrim (pySlice c 2)))) ∧
    resolveCore ["1.2.0"] (some "==1.2") "1.2.0" =
      Except.ok ⟨["1.2.0"], [], none⟩ := by
  constructor
  · intro vs c h
    obtain ⟨h1, h2, h3, h4, -⟩ := startsTests_of_eqeq h
    simp [applyConstraint, h1, h2, h3, h4, h]
  · decide

/-- Witness for C5 at a concrete input: only the exact raw string
`1.2` survives the `==1.2` filter. -/
theorem C5_witness :
    applyConstraint ["1.2.0", "1.2"] "==1.2" =
      Except.ok (false, ["1.2"]) := by
  rw [C5_exact_string_match.1 ["1.2.0", "1.2"] "==1.2" (by decide)]
  decide

/-- C7: a `~=` constraint performs a textual prefix match: the operand
is split on dots, all components but the last are rejoined with dots
and a trailing dot is appended, and a candidate matches iff its raw
string starts with that prefix; for operand `1.4.2` the prefix is
`1.4.`, so `1.4.9` matches while `1.5.0` and `1.4` do not. -/
theorem C7_tilde_prefix_match :
    (∀ (vs : List String) (c : String), pyStartsWith c "~=" = true →
      applyConstraint vs c = Except.ok (false,
        vs.filter (fun v =>
          pyStartsWith v (tildePref (pyTrim (pySlice c 2)))))) ∧
    tildePref "1.4.2" = "1.4." ∧
    pyStartsWith "1.4.9" (tildePref "1.4.2") = true ∧
    pyStartsWith "1.5.0" (tildePref "1.4.2") = false ∧
    pyStartsWith "1.4" (tildePref "1.4.2") = false := by
  refine ⟨?_, by decide, by decide, by decide, by decide⟩
  intro vs c h
  obtain ⟨h1, h2, h3, h4, h5, -⟩ := startsTests_of_tilde h
  simp [applyConstraint, h1, h2, h3, h4, h5, h, tildePref]

/-- Witness for C7 at a concrete input (note that `1.4.0` also starts
with the prefix `1.4.` and matches). -/
theorem C7_witness :
    applyConstraint ["1.4.0", "1.4.2", "1.4.9", "1.5.0", "1.4"] "~=1.4.2" =
      Except.ok (false, ["1.4.0", "1.4.2", "1.4.9"]) := by
  rw [C7_tilde_prefix_match.1 _ _ (by decide)]
  decide

/-- C6: comparison constraints (`>=`, `>`, `<=`, `<`) filter by the
semantic-version total order against the parsed operand: the result is
exactly the candidates standing in the required relation; the order is
total, and versions with differing segment counts compare correctly
(`1.2` equals `1.2.0`). -/
theorem C6_semver_filtering :
    (∀ (vs : List String) (c : String) (m : List Nat),
      pyStartsWith c ">=" = true →
      parseVersion (pyTrim (pySlice c 2)) = Except.ok m →
      (∀ v ∈ vs, (parseVersion v).isOk = true) →
      applyConstraint vs c =
        Except.ok (false, vs.filter (fun v => vgeB (parseKey v) m))) ∧
    (∀ (vs : List String) (c : String) (m : List Nat),
      pyStartsWith c ">" = true → pyStartsWith c ">=" = false →
      parseVersion (pyTrim (pySlice c 1)) = Except.ok m →
      (∀ v ∈ vs, (parseVersion v).isOk = true) →
      applyConstraint vs c =
        Except.ok (false, vs.filter (fun v => vgtB (parseKey v) m))) ∧
    (∀ (vs : List String) (c : String) (m : List Nat),
      pyStartsWith c "<=" = true →
      parseVersion (pyTrim (pySlice c 2)) = Except.ok m →
      (∀ v ∈ vs, (parseVersion v).isOk = true) →
      applyConstraint vs c =
        Except.ok (false, vs.filter (fun v => vleB (parseKey v) m))) ∧
    (∀ (vs : List String) (c : String) (m : List Nat),
      pyStartsWith c "<" = true → pyStartsWith c "<=" = false →
      parseVersion (pyTrim (pySlice c 1)) = Except.ok m →
      (∀ v ∈ vs, (parseVersion v).isOk = true) →
      applyConstraint vs c =
        Except.ok (false, vs.filter (fun v => vltB (parseKey v) m))) ∧
    (∀ a b : List Nat, vgeB a b = true ∨ vgeB b a = true) ∧
    (parseVersion "1.2" = Except.ok [1, 2] ∧
      parseVersion "1.2.0" = Except.ok [1, 2, 0] ∧
      cmpVersion [1, 2] [1, 2, 0] = Ordering.eq) := by
  refine ⟨?_, ?_, ?_, ?_, ?_, by decide, by decide, by decide⟩
  · intro vs c m h hm hall
    simp [applyConstraint, h, filterCmp_ok hm hall, Except.map]
  · intro vs c m h h' hm hall
    simp [applyConstraint, h, h', filterCmp_ok hm hall, Except.map]
  · intro vs c m h hm hall
    obtain ⟨n1, n2⟩ := startsTests_of_le h
    simp [applyConstraint, n1, n2, h, filterCmp_ok hm hall, Except.map]
  · intro vs c m h h' hm hall
    obtain ⟨n1, n2⟩ := startsTests_of_lt h
    simp [applyConstraint, n1, n2, h', h, filterCmp_ok hm hall, Except.map]
  · intro a b
    rcases cmpVersion_total a b with h | h
    · exact Or.inl (vgeB_iff.mpr h)
    · exact Or.inr (vgeB_iff.mpr h)

/-- Witness for C6 at a concrete input: `>=1.2.0` keeps exactly the
candidates at or above `1.2.0`. -/
theorem C6_witness :
    applyConstraint ["1.0.0", "1.2.0", "1.2.3", "2.0.0"] ">=1.2.0" =
      Except.ok (false, ["1.2.0", "1.2.3", "2.0.0"]) := by
  rw [C6_semver_filtering.1 ["1.0.0", "1.2.0", "1.2.3", "2.0.0"] ">=1.2.0"
    [1, 2, 0] (by decide) (by decide) (by decide)]
  decide

/-- C8: after filtering under a present, non-empty constraint, a
non-empty match list is returned sorted descending by parsed semantic
version with the recommendation equal to its first element, and an
empty match list yields an absent recommendation rather than an
exception. -/
theorem C8_sort_and_recommendation :
    ∀ (vs : List String) (c latest : String) (al : Bool) (ms : List String),
      c ≠ "" → applyConstraint vs c = Except.ok (al, ms) →
      (ms = [] → resolveCore vs (some c) latest = Except.ok ⟨vs, [], none⟩) ∧
      (ms ≠ [] → (∀ v ∈ ms, (parseVersion v).isOk = true) →
        ∃ out, resolveCore vs (some c) latest = Except.ok out ∧
          out.compatible_versions.Perm ms ∧
          descendingByVersion out.compatible_versions ∧
          out.recommended_version = out.compatible_versions.head?) := by
  intro vs c latest al ms hc ha
  constructor
  · intro hms
    subst hms
    exact resolveCore_apply_empty hc ha
  · intro hne hall
    obtain ⟨l, hs, hperm, hpair⟩ := sortVersionsDesc_ok hall
    cases ms with
    | nil => exact absurd rfl hne
    | cons v rest =>
      exact ⟨⟨if al then l else vs, l, l.head?⟩,
        resolveCore_apply_cons latest hc ha hs, hperm, hpair, rfl⟩

/-- Witness for C8 at the `>=1.2.0` scenario. -/
theorem C8_witness :
    ∃ out, resolveCore ["1.0.0", "1.2.0", "1.2.3", "2.0.0"]
        (some ">=1.2.0") "2.0.0" = Except.ok out ∧
      out.compatible_versions.Perm ["1.2.0", "1.2.3", "2.0.0"] ∧
      descendingByVersion out.compatible_versions ∧
      out.recommended_version = out.compatible_versions.head? :=
  (C8_sort_and_recommendation ["1.0.0", "1.2.0", "1.2.3", "2.0.0"] ">=1.2.0"
      "2.0.0" false ["1.2.0", "1.2.3", "2.0.0"] (by decide) (by decide)).2
    (by decide) (by decide)

/-- C10: with a non-empty unrecognized-operator constraint and a
non-empty candidate set of parsable versions, the returned list is the
full candidate set reordered descending by parsed version, the
recommendation is a semantically greatest candidate of that set, and
the outcome is independent of the registry-reported latest version. -/
theorem C10_unrecognized_sorts_and_recommends_max :
    ∀ (vs : List String) (c latest1 latest2 : String),
      recognizedOp c = false → c ≠ "" → vs ≠ [] →
      (∀ v ∈ vs, (parseVersion v).isOk = true) →
      (∃ out, resolveCore vs (some c) latest1 = Except.ok out ∧
        out.compatible_versions.Perm vs ∧
        descendingByVersion out.compatible_versions ∧
        (∃ w, out.recommended_version = some w ∧ w ∈ vs ∧
          ∀ v ∈ vs, vgeB (parseKey w) (parseKey v) = true)) ∧
      resolveCore vs (some c) latest1 = resolveCore vs (some c) latest2 := by
  intro vs c latest1 latest2 hrec hc hvs hall
  have ha : applyConstraint vs c = Except.ok (true, vs) :=
    applyConstraint_unrecognized hrec
  cases vs with
  | nil => exact absurd rfl hvs
  | cons v rest =>
    obtain ⟨l, hs, hperm, hpair⟩ := sortVersionsDesc_ok hall
    have h1 : resolveCore (v :: rest) (some c) latest1 =
        Except.ok ⟨l, l, l.head?⟩ := by
      have := resolveCore_apply_cons latest1 hc ha hs
      simpa using this
    have h2 : resolveCore (v :: rest) (some c) latest2 =
        Except.ok ⟨l, l, l.head?⟩ := by
      have := resolveCore_apply_cons latest2 hc ha hs
      simpa using this
    refine ⟨⟨⟨l, l, l.head?⟩, h1, hperm, hpair, ?_⟩, by rw [h1, h2]⟩
    cases l with
    | nil =>
      exact absurd hperm.symm.eq_nil (by simp)
    | cons w ws =>
      refine ⟨w, rfl, hperm.mem_iff.mp (List.mem_cons_self w ws), ?_⟩
      intro u hu
      have hul : u ∈ w :: ws := hperm.mem_iff.mpr hu
      rcases List.mem_cons.mp hul with he | hts
      · rw [he]
        exact vgeB_refl _
      · exact (List.pairwise_cons.mp hpair).1 u hts

/-- Witness for C10 with the unrecognized constraint `^1`. -/
theorem C10_witness :
    (∃ out, resolveCore ["1.0.0", "2.0.0"] (some "^1") "reg-latest" =
        Except.ok out ∧
      out.compatible_versions.Perm ["1.0.0", "2.0.0"] ∧
      descendingByVersion out.compatible_versions ∧
      (∃ w, out.recommended_version = some w ∧ w ∈ ["1.0.0", "2.0.0"] ∧
        ∀ v ∈ ["1.0.0", "2.0.0"], vgeB (parseKey w) (parseKey v) = true)) ∧
    resolveCore ["1.0.0", "2.0.0"] (some "^1") "reg-latest" =
      resolveCore ["1.0.0", "2.0.0"] (some "^1") "other" :=
  C10_unrecognized_sorts_and_recommends_max ["1.0.0", "2.0.0"] "^1"
    "reg-latest" "other" (by decide) (by decide) (by decide) (by decide)

/-- C4 fails as stated: with an unrecognized-operator constraint and a
candidate whose version string cannot be parsed, the in-place sort of
the unfiltered list raises, and the operation returns an
error-carrying result with an empty version list — it neither returns
the full candidate set nor stays silent about the failure. -/
theorem C4_counterexample :
    get_compatible_versions ⟨"pkg", "pip", some "^1.0"⟩
        (Fetch.resp 200 (Except.ok (Json.obj
          [("releases", Json.obj [("abc", Json.arr [])]),
           ("info", Json.obj [("version", Json.str "abc")])]))) =
      { package_name := "pkg", package_manager := "pip",
        compatible_versions := [], recommended_version := none,
        error := some "Invalid version: abc" } := by decide

/-- C4 (amended): with a non-empty unrecognized-operator constraint,
no filtering occurs, and provided every candidate parses as a version
the operation succeeds with no error, returning the full candidate set
(as a permutation: the in-place sort reorders it descending); an
unparsable candidate instead turns the whole operation into an error
result. -/
theorem C4_unrecognized_passthrough :
    ∀ (vs : List String) (c latest : String),
      recognizedOp c = false → c ≠ "" →
      (∀ v ∈ vs, (parseVersion v).isOk = true) →
      ∃ out, resolveCore vs (some c) latest = Except.ok out ∧
        out.compatible_versions.Perm vs := by
  intro vs c latest hrec hc hall
  have ha : applyConstraint vs c = Except.ok (true, vs) :=
    applyConstraint_unrecognized hrec
  cases vs with
  | nil =>
    exact ⟨⟨[], [], none⟩, resolveCore_apply_empty hc ha, List.Perm.refl []⟩
  | cons v rest =>
    obtain ⟨l, hs, hperm, -⟩ := sortVersionsDesc_ok hall
    refine ⟨⟨l, l, l.head?⟩, ?_, hperm⟩
    have := resolveCore_apply_cons latest hc ha hs
    simpa using this

/-- Witness for the amended C4 theorem with the unrecognized
constraint `~>1.0`. -/
theorem C4_witness :
    ∃ out, resolveCore ["1.0.0", "2.0.0"] (some "~>1.0") "x" =
        Except.ok out ∧ out.compatible_versions.Perm ["1.0.0", "2.0.0"] :=
  C4_unrecognized_passthrough ["1.0.0", "2.0.0"] "~>1.0" "x" (by decide)
    (by decide) (by decide)

/-- C3 fails as stated: one unparsable candidate aborts the whole
batch — the comparison raises, the operation catches the fault and
returns an error result with an empty version list and no
recommendation; the remaining parsable candidates `1.0.0` and `2.0.0`
are not filtered, sorted or recommended. -/
theorem C3_counterexample :
    get_compatible_versions ⟨"pkg", "pip", some ">=1.0.0"⟩
        (Fetch.resp 200 (Except.ok (Json.obj
          [("releases", Json.obj
            [("1.0.0", Json.arr []), ("not-a-version", Json.arr []),
             ("2.0.0", Json.arr [])]),
           ("info", Json.obj [("version", Json.str "2.0.0")])]))) =
      { package_name := "pkg", package_manager := "pip",
        compatible_versions := [], recommended_version := none,
        error := some "Invalid version: not-a-version" } := by decide

/-- C3 (amended): for a comparison-operator constraint, a candidate
set containing an unparsable version string makes the whole resolution
raise — the parse failure is reported for the batch (the error text
names the offending string), not absorbed per candidate. -/
theorem C3_parse_failure_aborts_batch :
    ∀ (vs : List String) (c latest : String),
      (pyStartsWith c ">=" = true ∨ pyStartsWith c ">" = true ∨
        pyStartsWith c "<=" = true ∨ pyStartsWith c "<" = true) →
      (∃ v ∈ vs, (parseVersion v).isOk = false) →
      ∃ msg, resolveCore vs (some c) latest = Except.error msg := by
  intro vs c latest hop hbad
  have hc : c ≠ "" := by
    rcases hop with h | h | h | h
    · exact ne_empty_of_pyStartsWith_ge h
    · exact ne_empty_of_pyStartsWith_gt h
    · exact ne_empty_of_pyStartsWith_le h
    · exact ne_empty_of_pyStartsWith_lt h
  by_cases h1 : pyStartsWith c ">=" = true
  · obtain ⟨msg, hmsg⟩ : ∃ u, filterCmp vs (pyTrim (pySlice c 2)) vgeB =
        Except.error u :=
      filterCmp_err hbad
    refine ⟨msg, resolveCore_apply_err hc ?_⟩
    simp [applyConstraint, h1, hmsg, Except.map]
  by_cases h2 : pyStartsWith c ">" = true
  · obtain ⟨msg, hmsg⟩ : ∃ u, filterCmp vs (pyTrim (pySlice c 1)) vgtB =
        Except.error u :=
      filterCmp_err hbad
    refine ⟨msg, resolveCore_apply_err hc ?_⟩
    simp [applyConstraint, h1, h2, hmsg, Except.map]
  by_cases h3 : pyStartsWith c "<=" = true
  · obtain ⟨msg, hmsg⟩ : ∃ u, filterCmp vs (pyTrim (pySlice c 2)) vleB =
        Except.error u :=
      filterCmp_err hbad
    refine ⟨msg, resolveCore_apply_err hc ?_⟩
    simp [applyConstraint, h1, h2, h3, hmsg, Except.map]
  by_cases h4 : pyStartsWith c "<" = true
  · obtain ⟨msg, hmsg⟩ : ∃ u, filterCmp vs (pyTrim (pySlice c 1)) vltB =
        Except.error u :=
      filterCmp_err hbad
    refine ⟨msg, resolveCore_apply_err hc ?_⟩
    simp [applyConstraint, h1, h2, h3, h4, hmsg, Except.map]
  · exfalso
    rcases hop with h | h | h | h <;> simp_all

/-- Witness for the amended C3 theorem: one garbage candidate among
parsable ones makes the whole resolution raise. -/
theorem C3_witness :
    ∃ msg, resolveCore ["1.0.0", "not-a-version", "2.0.0"]
        (some ">=1.0.0") "2.0.0" = Except.error msg :=
  C3_parse_failure_aborts_batch ["1.0.0", "not-a-version", "2.0.0"]
    ">=1.0.0" "2.0.0" (Or.inl (by decide))
    ⟨"not-a-version", by decide, by decide⟩

/-- C2: every failing input to the three operations — an unsupported
registry selector, a transport failure, a not-found (non-200) response
or malformed upstream JSON — produces a structurally valid result with
a populated error field and empty/default data fields; moreover, on
every input whatsoever, each operation returns a result that either
carries no error or has empty data fields — no code path escapes as an
unhandled fault. -/
theorem C2_failures_yield_error_results :
    (∀ (q : PackageQuery) (f : Fetch),
      unsupportedManagerB q.package_manager = true ∨ fetchFailureB f = true →
      (get_package_info q f).error.isSome = true ∧
      (get_package_info q f).versions = [] ∧
      (get_package_info q f).latest_version = "" ∧
      (get_package_info q f).description = none) ∧
    (∀ (q : PackageQuery) (f : Fetch),
      (get_package_info q f).error = none ∨
        ((get_package_info q f).versions = [] ∧
          (get_package_info q f).latest_version = "")) ∧
    (∀ (q : DependencyQuery) (f : Fetch),
      unsupportedManagerB q.package_manager = true ∨ fetchFailureB f = true →
      (get_dependencies q f).error.isSome = true ∧
      (get_dependencies q f).dependencies = []) ∧
    (∀ (q : DependencyQuery) (f : Fetch),
      (get_dependencies q f).error = none ∨
        (get_dependencies q f).dependencies = []) ∧
    (∀ (q : VersionQuery) (f : Fetch),
      unsupportedManagerB q.package_manager = true ∨ fetchFailureB f = true →
      (get_compatible_versions q f).error.isSome = true ∧
      (get_compatible_versions q f).compatible_versions = [] ∧
      (get_compatible_versions q f).recommended_version = none) ∧
    (∀ (q : VersionQuery) (f : Fetch),
      (get_compatible_versions q f).error = none ∨
        (get_compatible_versions q f).compatible_versions = []) :=
  ⟨get_package_info_failure, get_package_info_sound,
    get_dependencies_failure, get_dependencies_sound,
    get_compatible_versions_failure, get_compatible_versions_sound⟩

/-- Witness for C2: an unsupported registry (`cargo`), a transport
failure, and malformed upstream JSON, one per operation. -/
theorem C2_witness :
    ((get_package_info ⟨"left-pad", "cargo", none⟩
        (Fetch.resp 200 (Except.ok Json.null))).error.isSome = true ∧
      (get_package_info ⟨"left-pad", "cargo", none⟩
        (Fetch.resp 200 (Except.ok Json.null))).versions = [] ∧
      (get_package_info ⟨"left-pad", "cargo", none⟩
        (Fetch.resp 200 (Except.ok Json.null))).latest_version = "" ∧
      (get_package_info ⟨"left-pad", "cargo", none⟩
        (Fetch.resp 200 (Except.ok Json.null))).description = none) ∧
    ((get_dependencies ⟨"requests", "pip", none, some 1⟩
        (Fetch.fail "connection timed out")).error.isSome = true ∧
      (get_dependencies ⟨"requests", "pip", none, some 1⟩
        (Fetch.fail "connection timed out")).dependencies = []) ∧
    ((get_compatible_versions ⟨"express", "npm", some ">=4"⟩
        (Fetch.resp 200 (Except.error "malformed JSON"))).error.isSome
          = true ∧
      (get_compatible_versions ⟨"express", "npm", some ">=4"⟩
        (Fetch.resp 200 (Except.error "malformed JSON"))).compatible_versions
          = [] ∧
      (get_compatible_versions ⟨"express", "npm", some ">=4"⟩
        (Fetch.resp 200
          (Except.error "malformed JSON"))).recommended_version = none) :=
  ⟨C2_failures_yield_error_results.1 _ _ (Or.inl (by decide)),
    C2_failures_yield_error_results.2.2.1 _ _ (Or.inr (by decide)),
    C2_failures_yield_error_results.2.2.2.2.1 _ _ (Or.inr (by decide))⟩

end PkgMCP
